import Mathlib

/- Shallow embedding of src/phoebe/algorithms/mrch.c, the C marching
   triangulator for equipotential surfaces.  C doubles are modelled by an
   arbitrary linear ordered field with a floor function; the libm calls
   (sqrt, cos, sin, atan2, pow) are modelled as a record of supplied
   functions, mirroring how the C code treats them as external routines.
   The Python argument checking of discretize() is modelled with Except. -/

variable {α : Type} [LinearOrderedField α] [FloorRing α] {β : Type}

/-- The constant from mrch.c line 12: `#define PI 3.14159265359` (an exact
rational literal, slightly larger than the real pi). -/
def cPI : α := 314159265359 / 100000000000

/-- Convergence tolerance `1e-12` used by `project_onto_potential` (line 502). -/
def tol : α := 1 / 10 ^ 12

/-- Tie-break threshold `1e-6` used by `argmin` (line 534). -/
def cEps6 : α := 1 / 10 ^ 6

/-- C `trunc`: rounding toward zero. -/
def ctrunc (x : α) : ℤ := if 0 ≤ x then ⌊x⌋ else ⌈x⌉

/-- C `fmod x y = x - y * trunc (x / y)` (sign of the dividend). -/
def cfmod (x y : α) : α := x - y * (ctrunc (x / y) : α)

/-- A 3-vector of doubles, e.g. the `double r[3]` arrays of mrch.c. -/
structure Vec3 (α : Type) where
  x : α
  y : α
  z : α
deriving DecidableEq

/-- A 3x3 matrix stored row-major as the `double invM[9]` field. -/
structure Mat3 (α : Type) where
  m0 : α
  m1 : α
  m2 : α
  m3 : α
  m4 : α
  m5 : α
  m6 : α
  m7 : α
  m8 : α
deriving DecidableEq

/-- The `MeshVertex` struct (mrch.c lines 17-24). -/
structure MeshVertex (α : Type) where
  r : Vec3 α
  n : Vec3 α
  t1 : Vec3 α
  t2 : Vec3 α
  invM : Mat3 α
deriving DecidableEq

/-- The `Triangle` struct (mrch.c lines 129-134): three vertices by value. -/
structure Triangle (α : Type) where
  v0 : MeshVertex α
  v1 : MeshVertex α
  v2 : MeshVertex α
deriving DecidableEq

def v3zero : Vec3 α := ⟨0, 0, 0⟩

def m3zero : Mat3 α := ⟨0, 0, 0, 0, 0, 0, 0, 0, 0⟩

def mvZero : MeshVertex α := ⟨v3zero, v3zero, v3zero, v3zero, m3zero⟩

def vsub (a b : Vec3 α) : Vec3 α := ⟨a.x - b.x, a.y - b.y, a.z - b.z⟩

def vadd (a b : Vec3 α) : Vec3 α := ⟨a.x + b.x, a.y + b.y, a.z + b.z⟩

/-- Squared Euclidean distance, as written out in the loop guard of
`project_onto_potential` (line 502). -/
def distSq (a b : Vec3 α) : α :=
  (a.x - b.x) * (a.x - b.x) + (a.y - b.y) * (a.y - b.y) + (a.z - b.z) * (a.z - b.z)

/-- `cart2local` (mrch.c lines 539-544): multiply by the cached inverse frame. -/
def cart2local (v : MeshVertex α) (r : Vec3 α) : Vec3 α :=
  ⟨v.invM.m0 * r.x + v.invM.m1 * r.y + v.invM.m2 * r.z,
   v.invM.m3 * r.x + v.invM.m4 * r.y + v.invM.m5 * r.z,
   v.invM.m6 * r.x + v.invM.m7 * r.y + v.invM.m8 * r.z⟩

/-- `local2cart` (mrch.c lines 546-551): multiply by the frame [n | t1 | t2]. -/
def local2cart (v : MeshVertex α) (r : Vec3 α) : Vec3 α :=
  ⟨v.n.x * r.x + v.t1.x * r.y + v.t2.x * r.z,
   v.n.y * r.x + v.t1.y * r.y + v.t2.y * r.z,
   v.n.z * r.x + v.t1.z * r.y + v.t2.z * r.z⟩

/-- The libm routines mrch.c links against, supplied as parameters. -/
structure Primitives (α : Type) where
  sqrt : α → α
  cos : α → α
  sin : α → α
  atan2 : α → α → α
  pow : α → α → α

/-- The `PotentialParameters` struct (mrch.c lines 361-371): a bound
parameter vector and the four function pointers. -/
structure Pot (α : Type) where
  p : List α
  pot : Vec3 α → List α → α
  dx : Vec3 α → List α → α
  dy : Vec3 α → List α → α
  dz : Vec3 α → List α → α

/-- `sphere` (line 180). -/
def sphere (r : Vec3 α) (p : List α) : α :=
  r.x * r.x + r.y * r.y + r.z * r.z - p.getD 0 0 * p.getD 0 0

def dspheredx (r : Vec3 α) (_p : List α) : α := 2 * r.x

def dspheredy (r : Vec3 α) (_p : List α) : α := 2 * r.y

def dspheredz (r : Vec3 α) (_p : List α) : α := 2 * r.z

/-- `binary_roche` (line 203). -/
def binary_roche (pr : Primitives α) (r : Vec3 α) (p : List α) : α :=
  1 / pr.sqrt (r.x * r.x + r.y * r.y + r.z * r.z) +
    p.getD 1 0 * (1 / pr.sqrt ((r.x - p.getD 0 0) * (r.x - p.getD 0 0) + r.y * r.y + r.z * r.z) -
      r.x / p.getD 0 0 / p.getD 0 0) +
    1 / 2 * p.getD 2 0 * p.getD 2 0 * (1 + p.getD 1 0) * (r.x * r.x + r.y * r.y) - p.getD 3 0

def dbinary_rochedx (pr : Primitives α) (r : Vec3 α) (p : List α) : α :=
  -r.x * pr.pow (r.x * r.x + r.y * r.y + r.z * r.z) (-(3 / 2)) -
    p.getD 1 0 * (r.x - p.getD 0 0) *
      pr.pow ((r.x - p.getD 0 0) * (r.x - p.getD 0 0) + r.y * r.y + r.z * r.z) (-(3 / 2)) -
    p.getD 1 0 / p.getD 0 0 / p.getD 0 0 + p.getD 2 0 * p.getD 2 0 * (1 + p.getD 1 0) * r.x

def dbinary_rochedy (pr : Primitives α) (r : Vec3 α) (p : List α) : α :=
  -r.y * pr.pow (r.x * r.x + r.y * r.y + r.z * r.z) (-(3 / 2)) -
    p.getD 1 0 * r.y *
      pr.pow ((r.x - p.getD 0 0) * (r.x - p.getD 0 0) + r.y * r.y + r.z * r.z) (-(3 / 2)) +
    p.getD 2 0 * p.getD 2 0 * (1 + p.getD 1 0) * r.y

def dbinary_rochedz (pr : Primitives α) (r : Vec3 α) (p : List α) : α :=
  -r.z * pr.pow (r.x * r.x + r.y * r.y + r.z * r.z) (-(3 / 2)) -
    p.getD 1 0 * r.z *
      pr.pow ((r.x - p.getD 0 0) * (r.x - p.getD 0 0) + r.y * r.y + r.z * r.z) (-(3 / 2))

/-- The quadratic form `delta` of `misaligned_binary_roche` (line 235). -/
def misalignedDelta (pr : Primitives α) (r : Vec3 α) (p : List α) : α :=
  (1 - pr.pow (pr.cos (p.getD 4 0)) 2 * pr.pow (pr.sin (p.getD 3 0)) 2) * r.x * r.x +
    (1 - pr.pow (pr.sin (p.getD 4 0)) 2 * pr.pow (pr.sin (p.getD 3 0)) 2) * r.y * r.y +
    pr.pow (pr.sin (p.getD 3 0)) 2 * r.z * r.z -
    pr.pow (pr.sin (p.getD 3 0)) 2 * pr.sin (2 * p.getD 4 0) * r.x * r.y -
    pr.sin (2 * p.getD 3 0) * pr.cos (p.getD 4 0) * r.x * r.z -
    pr.sin (2 * p.getD 3 0) * pr.sin (p.getD 4 0) * r.y * r.z

/-- `misaligned_binary_roche` (line 233). -/
def misaligned_binary_roche (pr : Primitives α) (r : Vec3 α) (p : List α) : α :=
  1 / pr.sqrt (r.x * r.x + r.y * r.y + r.z * r.z) +
    p.getD 1 0 * (1 / pr.sqrt ((r.x - p.getD 0 0) * (r.x - p.getD 0 0) + r.y * r.y + r.z * r.z) -
      r.x / p.getD 0 0 / p.getD 0 0) +
    1 / 2 * p.getD 2 0 * p.getD 2 0 * (1 + p.getD 1 0) * misalignedDelta pr r p - p.getD 5 0

def dmisaligned_binary_rochedx (pr : Primitives α) (r : Vec3 α) (p : List α) : α :=
  -r.x * pr.pow (r.x * r.x + r.y * r.y + r.z * r.z) (-(3 / 2)) -
    p.getD 1 0 * (r.x - p.getD 0 0) *
      pr.pow ((r.x - p.getD 0 0) * (r.x - p.getD 0 0) + r.y * r.y + r.z * r.z) (-(3 / 2)) -
    p.getD 1 0 / p.getD 0 0 / p.getD 0 0 +
    1 / 2 * p.getD 2 0 * p.getD 2 0 * (1 + p.getD 1 0) *
      (2 * (1 - pr.pow (pr.cos (p.getD 4 0)) 2 * pr.pow (pr.sin (p.getD 3 0)) 2) * r.x -
        pr.pow (pr.sin (p.getD 3 0)) 2 * pr.sin (2 * p.getD 4 0) * r.y -
        pr.sin (2 * p.getD 3 0) * pr.cos (p.getD 4 0) * r.z)

def dmisaligned_binary_rochedy (pr : Primitives α) (r : Vec3 α) (p : List α) : α :=
  -r.y * pr.pow (r.x * r.x + r.y * r.y + r.z * r.z) (-(3 / 2)) -
    p.getD 1 0 * r.y *
      pr.pow ((r.x - p.getD 0 0) * (r.x - p.getD 0 0) + r.y * r.y + r.z * r.z) (-(3 / 2)) +
    1 / 2 * p.getD 2 0 * p.getD 2 0 * (1 + p.getD 1 0) *
      (2 * (1 - pr.pow (pr.sin (p.getD 4 0)) 2 * pr.pow (pr.sin (p.getD 3 0)) 2) * r.y -
        pr.pow (pr.sin (p.getD 3 0)) 2 * pr.sin (2 * p.getD 4 0) * r.x -
        pr.sin (2 * p.getD 3 0) * pr.sin (p.getD 4 0) * r.z)

def dmisaligned_binary_rochedz (pr : Primitives α) (r : Vec3 α) (p : List α) : α :=
  -r.z * pr.pow (r.x * r.x + r.y * r.y + r.z * r.z) (-(3 / 2)) -
    p.getD 1 0 * r.z *
      pr.pow ((r.x - p.getD 0 0) * (r.x - p.getD 0 0) + r.y * r.y + r.z * r.z) (-(3 / 2)) +
    1 / 2 * p.getD 2 0 * p.getD 2 0 * (1 + p.getD 1 0) *
      (2 * pr.pow (pr.sin (p.getD 3 0)) 2 * r.z -
        pr.sin (2 * p.getD 3 0) * pr.cos (p.getD 4 0) * r.x -
        pr.sin (2 * p.getD 3 0) * pr.sin (p.getD 4 0) * r.y)

/-- The constant `0.54433105395181736` of `rotate_roche` (line 286). -/
def rotRocheC : α := 54433105395181736 / 100000000000000000

/-- `rotate_roche` (line 284). -/
def rotate_roche (pr : Primitives α) (r : Vec3 α) (p : List α) : α :=
  1 / p.getD 1 0 - 1 / pr.sqrt (r.x * r.x + r.y * r.y + r.z * r.z) -
    1 / 2 * (p.getD 0 0 * rotRocheC) * (p.getD 0 0 * rotRocheC) * (r.x * r.x + r.y * r.y)

def drotate_rochedx (pr : Primitives α) (r : Vec3 α) (p : List α) : α :=
  r.x * pr.pow (r.x * r.x + r.y * r.y + r.z * r.z) (-(3 / 2)) -
    (p.getD 0 0 * rotRocheC) * (p.getD 0 0 * rotRocheC) * r.x

def drotate_rochedy (pr : Primitives α) (r : Vec3 α) (p : List α) : α :=
  r.y * pr.pow (r.x * r.x + r.y * r.y + r.z * r.z) (-(3 / 2)) -
    (p.getD 0 0 * rotRocheC) * (p.getD 0 0 * rotRocheC) * r.y

def drotate_rochedz (pr : Primitives α) (r : Vec3 α) (_p : List α) : α :=
  r.z * pr.pow (r.x * r.x + r.y * r.y + r.z * r.z) (-(3 / 2))

/-- `torus` (line 311). -/
def torus (pr : Primitives α) (r : Vec3 α) (p : List α) : α :=
  p.getD 1 0 * p.getD 1 0 - p.getD 0 0 * p.getD 0 0 +
    2 * p.getD 0 0 * pr.sqrt (r.x * r.x + r.y * r.y) - r.x * r.x - r.y * r.y - r.z * r.z

def dtorusdx (pr : Primitives α) (r : Vec3 α) (p : List α) : α :=
  2 * p.getD 0 0 * r.x * pr.pow (r.x * r.x + r.y * r.y) (-(1 / 2)) - 2 * r.x

def dtorusdy (pr : Primitives α) (r : Vec3 α) (p : List α) : α :=
  2 * p.getD 0 0 * r.y * pr.pow (r.x * r.x + r.y * r.y) (-(1 / 2)) - 2 * r.y

def dtorusdz (_pr : Primitives α) (r : Vec3 α) (_p : List α) : α := -2 * r.z

/-- `heart` (line 334). -/
def heart (pr : Primitives α) (r : Vec3 α) (_p : List α) : α :=
  pr.pow (r.x * r.x + 9 / 4 * r.y * r.y + r.z * r.z - 1) 3 -
    r.x * r.x * r.z * r.z * r.z - 9 / 80 * r.y * r.y * r.z * r.z * r.z

def dheartdx (pr : Primitives α) (r : Vec3 α) (_p : List α) : α :=
  3 * pr.pow (r.x * r.x + 9 / 4 * r.y * r.y + r.z * r.z - 1) 2 * 2 * r.x -
    2 * r.x * r.z * r.z * r.z

def dheartdy (pr : Primitives α) (r : Vec3 α) (_p : List α) : α :=
  3 * pr.pow (r.x * r.x + 9 / 4 * r.y * r.y + r.z * r.z - 1) 2 * (9 / 2) * r.y -
    9 / 40 * r.y * r.z * r.z * r.z

def dheartdz (pr : Primitives α) (r : Vec3 α) (_p : List α) : α :=
  3 * pr.pow (r.x * r.x + 9 / 4 * r.y * r.y + r.z * r.z - 1) 2 * 2 * r.z -
    3 * r.x * r.x * r.z * r.z - 27 / 80 * r.y * r.y * r.z * r.z

/-- `initialize_pars` (mrch.c lines 373-427).  On the six registered names it
fills all four function pointers; on any other name the C code falls through
and returns a descriptor whose four pointers were never assigned — that
unusable descriptor is modelled as `none`. -/
def init_pars (pr : Primitives α) (potential : String) (args : List α) : Option (Pot α) :=
  if potential = "Sphere" then
    some ⟨args, sphere, dspheredx, dspheredy, dspheredz⟩
  else if potential = "BinaryRoche" then
    some ⟨args, binary_roche pr, dbinary_rochedx pr, dbinary_rochedy pr, dbinary_rochedz pr⟩
  else if potential = "MisalignedBinaryRoche" then
    some ⟨args, misaligned_binary_roche pr, dmisaligned_binary_rochedx pr,
      dmisaligned_binary_rochedy pr, dmisaligned_binary_rochedz pr⟩
  else if potential = "RotateRoche" then
    some ⟨args, rotate_roche pr, drotate_rochedx pr, drotate_rochedy pr, drotate_rochedz pr⟩
  else if potential = "Torus" then
    some ⟨args, torus pr, dtorusdx pr, dtorusdy pr, dtorusdz pr⟩
  else if potential = "Heart" then
    some ⟨args, heart pr, dheartdx pr, dheartdy pr, dheartdz pr⟩
  else
    none

/-- The Python-level errors raised by `discretize` (mrch.c lines 775-861). -/
inductive PyErr where
  | notEnoughParameters
  | typeError
  | wrongNumberOfParameters
  | unavailablePotential
deriving DecidableEq

/-- The argument validation performed by the entry point `discretize`
(mrch.c lines 775-855), as a function of the name and the number `npars`
of positional arguments.  On success it returns the adjusted `npars`
(after defaulting the optional Omega for the two Roche potentials).
`PyArg_ParseTuple` with format "dis|dddddd" accepts at most 9 positional
arguments; more give a type error. -/
def discretizeValidate (potential : String) (npars : ℕ) : Except PyErr ℕ :=
  if npars < 4 then .error .notEnoughParameters
  else if 9 < npars then .error .typeError
  else if potential = "Sphere" then
    if npars ≠ 4 then .error .wrongNumberOfParameters else .ok npars
  else if potential = "BinaryRoche" then
    if npars < 6 ∨ 7 < npars then .error .wrongNumberOfParameters
    else if npars = 6 then .ok (npars + 1) else .ok npars
  else if potential = "MisalignedBinaryRoche" then
    if npars < 8 ∨ 9 < npars then .error .wrongNumberOfParameters
    else if npars = 8 then .ok (npars + 1) else .ok npars
  else if potential = "RotateRoche" then
    if npars ≠ 5 then .error .wrongNumberOfParameters else .ok npars
  else if potential = "Torus" then
    if npars ≠ 5 then .error .wrongNumberOfParameters else .ok npars
  else if potential = "Heart" then
    if npars ≠ 4 then .error .wrongNumberOfParameters else .ok npars
  else .error .unavailablePotential

/-- The tangent `t1` construction inside `vertex_from_pot` (mrch.c lines
447-458), applied to the already-normalized normal.  Note the C code tests
the SIGNED components: `if (n[0] > 0.5 || n[1] > 0.5)`. -/
def t1FromN (sq : α → α) (n : Vec3 α) : Vec3 α :=
  if n.x > 1 / 2 ∨ n.y > 1 / 2 then
    let nn := sq (n.y * n.y + n.x * n.x)
    ⟨n.y / nn, -n.x / nn, 0⟩
  else
    let nn := sq (n.x * n.x + n.z * n.z)
    ⟨-n.z / nn, 0, n.x / nn⟩

/-- The tangent rule as the specification states it (spec section 4.C): the
branch is chosen on the ABSOLUTE values |n_x|, |n_y|.  This definition follows
the spec's words and exists only to be compared against `t1FromN`. -/
def t1SpecRule (sq : α → α) (n : Vec3 α) : Vec3 α :=
  if |n.x| > 1 / 2 ∨ |n.y| > 1 / 2 then
    ⟨n.y / sq (n.x * n.x + n.y * n.y), -n.x / sq (n.x * n.x + n.y * n.y), 0⟩
  else
    ⟨-n.z / sq (n.x * n.x + n.z * n.z), 0, n.x / sq (n.x * n.x + n.z * n.z)⟩

/-- `vertex_from_pot` (mrch.c lines 433-484): build a fully populated surface
vertex (position, unit normal, tangents, cached inverse frame) at `r`. -/
def vertex_from_pot (pr : Primitives α) (pp : Pot α) (r : Vec3 α) : MeshVertex α :=
  let n0 : Vec3 α := ⟨pp.dx r pp.p, pp.dy r pp.p, pp.dz r pp.p⟩
  let nn := pr.sqrt (n0.x * n0.x + n0.y * n0.y + n0.z * n0.z)
  let n : Vec3 α := ⟨n0.x / nn, n0.y / nn, n0.z / nn⟩
  let t1 := t1FromN pr.sqrt n
  let t2 : Vec3 α := ⟨n.y * t1.z - n.z * t1.y, n.z * t1.x - n.x * t1.z, n.x * t1.y - n.y * t1.x⟩
  let detA := n.x * t1.y * t2.z - t2.x * t1.y * n.z + t1.x * t2.y * n.z -
    n.x * t2.y * t1.z + t2.x * n.y * t1.z - t1.x * n.y * t2.z
  { r := r, n := n, t1 := t1, t2 := t2,
    invM := ⟨(t1.y * t2.z - t2.y * t1.z) / detA, (t2.x * t1.z - t1.x * t2.z) / detA,
             (t1.x * t2.y - t2.x * t1.y) / detA, (t2.y * n.z - n.y * t2.z) / detA,
             (n.x * t2.z - t2.x * n.z) / detA, (t2.x * n.y - n.x * t2.y) / detA,
             (n.y * t1.z - n.z * t1.y) / detA, (t1.x * n.z - n.x * t1.z) / detA,
             (n.x * t1.y - t1.x * n.y) / detA⟩ }

/-- The Newton loop of `project_onto_potential` (mrch.c lines 502-520),
with explicit fuel.  The loop state is (r, ri, n_iter); `ri` holds the
previous iterate, initialized to the origin by line 496.  Because the guard
requires `n_iter < 100`, fuel 100 from `n_iter = 0` reproduces the C loop
exactly. -/
def projectGo (pp : Pot α) : ℕ → Vec3 α → Vec3 α → ℕ → Vec3 α × Vec3 α × ℕ
  | 0, r, ri, n => (r, ri, n)
  | fuel + 1, r, ri, n =>
    if tol < distSq r ri ∧ n < 100 then
      let g : Vec3 α := ⟨pp.dx r pp.p, pp.dy r pp.p, pp.dz r pp.p⟩
      let grsq := g.x * g.x + g.y * g.y + g.z * g.z
      let s := pp.pot r pp.p
      projectGo pp fuel ⟨r.x - s * g.x / grsq, r.y - s * g.y / grsq, r.z - s * g.z / grsq⟩ r (n + 1)
    else (r, ri, n)

/-- `project_onto_potential` (mrch.c lines 494-527): run the Newton loop from
`ri = (0,0,0)`, `n_iter = 0`; afterwards (line 522) a non-fatal warning is
printed exactly when `n_iter >= 90`, modelled by the returned Bool; the result
vertex is built at the final iterate. -/
def project_onto_potential (pr : Primitives α) (pp : Pot α) (r : Vec3 α) :
    MeshVertex α × Bool :=
  let res := projectGo pp 100 r v3zero 0
  (vertex_from_pot pr pp res.1, decide (90 ≤ res.2.2))

/-- The scan loop of `argmin` (mrch.c lines 529-537): `m` is the current
minimum index, `i` the loop counter. -/
def argminGo (arr : List α) (m : ℕ) (i : ℕ) : ℕ :=
  if h : i < arr.length then
    argminGo arr (if arr.getD m 0 - arr.getD i 0 > cEps6 then i else m) (i + 1)
  else m
termination_by arr.length - i
decreasing_by omega

/-- `argmin` (mrch.c line 529): linear scan from index 0, counter from 1. -/
def argmin (arr : List α) : ℕ := argminGo arr 0 1

/-- The triangle count before the sliver adjustment (mrch.c line 653):
`nt = trunc(minangle*3.0/PI) + 1`. -/
def ntInit (a : α) : ℤ := ctrunc (a * 3 / cPI) + 1

/-- The wedge division (mrch.c lines 653-658): the pair (nt, domega) actually
used, after the single sliver adjustment `if (domega < 0.8 && nt > 1)`. -/
def ntDom (a : α) : ℤ × α :=
  let nt := ntInit a
  let dom := a / (nt : α)
  if dom < 4 / 5 ∧ 1 < nt then (nt - 1, a / ((nt - 1 : ℤ) : α)) else (nt, dom)

/-- `vertex_array_drop_and_stack` (mrch.c lines 67-126): replace the idx-th
element of P by the contents of Pi.  The C code copies `Pstart = P[0..idx)`
and `Pend = P[idx+1..)`, resizes P to `P.size + Pi.size - 1` (returning the
empty front when that is 0), and refills it as [Pstart][Pi][Pend]; for
`idx < P.size` the three refill loops produce exactly the concatenation
below.  (The function is only called with 0 <= idx < P.size.) -/
def vertex_array_drop_and_stack (P Pi : List β) (idx : ℕ) : List β :=
  let Pstart := P.take idx
  let Pend := P.drop (idx + 1)
  if P.length + Pi.length - 1 = 0 then [] else Pstart ++ Pi ++ Pend

/-- The interior angle `omega[i]` computed by the main loop (mrch.c lines
626-647) at front vertex i: local-frame angles of the differences to the
cyclic predecessor and successor, wrapped into [0, 2*PI). -/
def omegaAt (pr : Primitives α) (P : List (MeshVertex α)) (i : ℕ) : α :=
  let j1 := if i = 0 then P.length - 1 else i - 1
  let vi := P.getD i mvZero
  let c2l1 := cart2local vi (vsub (P.getD j1 mvZero).r vi.r)
  let j2 := if i < P.length - 1 then i + 1 else 0
  let c2l2 := cart2local vi (vsub (P.getD j2 mvZero).r vi.r)
  let adiff := pr.atan2 c2l2.z c2l2.y - pr.atan2 c2l1.z c2l1.y
  let adiff2 := if adiff < 0 then adiff + 2 * cPI else adiff
  cfmod adiff2 (2 * cPI)

/-- The vector `omega` built by the main loop (mrch.c line 624-647). -/
def omegaList (pr : Primitives α) (P : List (MeshVertex α)) : List α :=
  (List.range P.length).map (omegaAt pr P)

/-- `minangle = omega[argmin(omega, P->size)]` (mrch.c lines 649-650). -/
def stepMinangle (pr : Primitives α) (P : List (MeshVertex α)) : α :=
  (omegaList pr P).getD (argmin (omegaList pr P)) 0

/-- One pass of the fan-construction loop body (mrch.c lines 669-698),
acting on the accumulated (V, new-triangles) pair at fan index i. -/
def stepFanF (pr : Primitives α) (pp : Pot α) (delta : α) (p0m v1 : MeshVertex α)
    (domega : α) (acc : List (MeshVertex α) × List (Triangle α)) (i : ℕ) :
    List (MeshVertex α) × List (Triangle α) :=
  let c2l1 := cart2local p0m (vsub v1.r p0m.r)
  let co := pr.cos ((i : α) * domega)
  let si := pr.sin ((i : α) * domega)
  let y0 := c2l1.y * co - c2l1.z * si
  let z0 := c2l1.y * si + c2l1.z * co
  let norm3 := pr.sqrt (y0 * y0 + z0 * z0)
  let y1 := y0 / (norm3 / delta)
  let z1 := z0 / (norm3 / delta)
  let l2c := local2cart p0m ⟨0, y1, z1⟩
  let qk := vadd p0m.r l2c
  let pk := (project_onto_potential pr pp qk).1
  let V2 := acc.1 ++ [pk]
  let t0 := if i = 1 then v1 else V2.getD (V2.length - 2) mvZero
  (V2, acc.2 ++ [Triangle.mk t0 pk p0m])

/-- The fan-construction loop `for (i = 1; i < nt; i++)` (mrch.c lines
669-698), over `k = nt - 1` indices, returning the grown V and the list of
fan triangles appended to Ts during the loop. -/
def stepFan (pr : Primitives α) (pp : Pot α) (delta : α) (p0m v1 : MeshVertex α)
    (domega : α) (k : ℕ) (V : List (MeshVertex α)) :
    List (MeshVertex α) × List (Triangle α) :=
  (List.range' 1 k).foldl (stepFanF pr pp delta p0m v1 domega) (V, [])

/-- The splice buffer Pi (mrch.c lines 713-717):
`Pi->v[i-1] = V->v[V->size - nt + i]` for i = 1 .. nt-1. -/
def stepPi (nt : ℤ) (Vnew : List (MeshVertex α)) : List (MeshVertex α) :=
  (List.range' 1 (nt - 1).toNat).map fun (i : ℕ) =>
    Vnew.getD ((Vnew.length : ℤ) - nt + (i : ℤ)).toNat mvZero

/-- One iteration of the main marching loop body (mrch.c lines 624-720),
mapping the state (P, V, Ts) to the state after the iteration. -/
def cdiscretizeStep (pr : Primitives α) (pp : Pot α) (delta : α)
    (P V : List (MeshVertex α)) (Ts : List (Triangle α)) :
    List (MeshVertex α) × List (MeshVertex α) × List (Triangle α) :=
  let omega := omegaList pr P
  let minidx := argmin omega
  let minangle := omega.getD minidx 0
  let nt := (ntDom minangle).1
  let domega := (ntDom minangle).2
  let ipred := if minidx = 0 then P.length - 1 else minidx - 1
  let isucc := if minidx < P.length - 1 then minidx + 1 else 0
  let p0m := P.getD minidx mvZero
  let v1 := P.getD ipred mvZero
  let v2 := P.getD isucc mvZero
  let fan := stepFan pr pp delta p0m v1 domega (nt - 1).toNat V
  let Vnew := fan.1
  let newT := fan.2
  let closing : Triangle α :=
    if nt = 1 then ⟨v1, v2, p0m⟩ else ⟨Vnew.getD (Vnew.length - 1) mvZero, v2, p0m⟩
  let Pi := stepPi nt Vnew
  (vertex_array_drop_and_stack P Pi minidx, Vnew, Ts ++ newT ++ [closing])

/-- How a run of the main marching loop ended. -/
inductive ExitKind where
  | frontEmpty
  | stepBound
  | fuelOut
deriving DecidableEq

/-- The main marching loop `while (P->size > 0)` (mrch.c lines 618-721) with
explicit fuel: the step counter is incremented on loop entry, then the bound
`if (max_triangles > 0 && step > max_triangles) break;` is checked, then the
body runs.  Returns the final triangle list and how the loop exited. -/
def cdiscretizeLoop (pr : Primitives α) (pp : Pot α) (delta : α) (maxT : ℤ) :
    ℕ → ℤ → List (MeshVertex α) → List (MeshVertex α) → List (Triangle α) →
    List (Triangle α) × ExitKind
  | 0, _, _, _, Ts => (Ts, .fuelOut)
  | fuel + 1, step, P, V, Ts =>
    if 0 < P.length then
      if 0 < maxT ∧ maxT < step + 1 then (Ts, .stepBound)
      else
        let next := cdiscretizeStep pr pp delta P V Ts
        cdiscretizeLoop pr pp delta maxT fuel (step + 1) next.1 next.2.1 next.2.2
    else (Ts, .frontEmpty)

/-- The initial hexagonal ring (mrch.c lines 601-608): six points at distance
delta from the seed vertex in its tangent plane at angles i*PI/3, each
projected onto the surface. -/
def hexRing (pr : Primitives α) (pp : Pot α) (delta : α) (p0 : MeshVertex α) :
    List (MeshVertex α) :=
  (List.range 6).map fun (i : ℕ) =>
    let qk : Vec3 α :=
      ⟨p0.r.x + delta * pr.cos ((i : α) * (cPI / 3)) * p0.t1.x +
         delta * pr.sin ((i : α) * (cPI / 3)) * p0.t2.x,
       p0.r.y + delta * pr.cos ((i : α) * (cPI / 3)) * p0.t1.y +
         delta * pr.sin ((i : α) * (cPI / 3)) * p0.t2.y,
       p0.r.z + delta * pr.cos ((i : α) * (cPI / 3)) * p0.t1.z +
         delta * pr.sin ((i : α) * (cPI / 3)) * p0.t2.z⟩
    (project_onto_potential pr pp qk).1

/-- `int idx1[6] = {1,2,3,4,5,6}` (mrch.c line 574). -/
def idx1 (i : ℕ) : ℕ := i + 1

/-- `int idx2[6] = {2,3,4,5,6,1}` (mrch.c line 575). -/
def idx2 (i : ℕ) : ℕ := [2, 3, 4, 5, 6, 1].getD i 0

/-- The six seed triangles (mrch.c lines 610-616). -/
def initialTris (V1 : List (MeshVertex α)) : List (Triangle α) :=
  (List.range 6).map fun (i : ℕ) =>
    ⟨V1.getD 0 mvZero, V1.getD (idx1 i) mvZero, V1.getD (idx2 i) mvZero⟩

/-- `cdiscretize` (mrch.c lines 553-772) up to the output table: seed at
`init = (-0.00002, 0, 0)`, build the hexagonal fan, run the main loop.  The
returned triangle list has exactly the rows of the N x 16 output table
(`dims[0] = Ts->size`, line 724), so its length is the row count. -/
def cdiscretizeCore (pr : Primitives α) (pp : Pot α) (delta : α) (maxT : ℤ)
    (fuel : ℕ) : List (Triangle α) × ExitKind :=
  let init : Vec3 α := ⟨-(2 / 100000), 0, 0⟩
  let p0 := (project_onto_potential pr pp init).1
  let ring := hexRing pr pp delta p0
  let V1 := p0 :: ring
  cdiscretizeLoop pr pp delta maxT fuel (-1) ring V1 (initialTris V1)

/-- `cdiscretize` including the registry lookup (mrch.c line 557): on an
unregistered name the descriptor is unusable (see `init_pars`). -/
def cdiscretize (pr : Primitives α) (delta : α) (maxT : ℤ) (potential : String)
    (args : List α) (fuel : ℕ) : Option (List (Triangle α) × ExitKind) :=
  (init_pars pr potential args).map fun pp => cdiscretizeCore pr pp delta maxT fuel

/-- Concrete primitives over the rationals used by witnesses: atan2 is
identically 0 (inside the range [-PI, PI] of the C atan2); the others are
simple total functions. -/
def qPrims : Primitives ℚ :=
  ⟨fun _ => 1, fun _ => 1, fun _ => 0, fun _ _ => 0, fun _ _ => 1⟩

/-- A concrete potential descriptor over the rationals used by witnesses:
the zero potential with zero gradient. -/
def qPot : Pot ℚ :=
  ⟨[], fun _ _ => 0, fun _ _ => 0, fun _ _ => 0, fun _ _ => 0⟩

/-- The scenario claim for `discretize(0.1, 50, "Sphere", 1.0)` as the spec
states it, read over the idealized reals: some run of the marching core with
delta = 0.1 and max_triangles = 50 (whatever the primitive routines and the
potential descriptor are — this covers in particular the real sphere) stops
because the step counter exceeds max_triangles and returns exactly 56 rows. -/
def C2ClaimAsStated : Prop :=
  ∃ (pr : Primitives ℝ) (pp : Pot ℝ) (fuel : ℕ),
    (cdiscretizeCore pr pp (1 / 10) 50 fuel).2 = ExitKind.stepBound ∧
    (cdiscretizeCore pr pp (1 / 10) 50 fuel).1.length = 56

omit [FloorRing α] in
lemma cPI_pos : (0 : α) < cPI := by
  unfold cPI; positivity

lemma ctrunc_of_nonneg (x : α) (h : 0 ≤ x) : ctrunc x = ⌊x⌋ := by
  simp [ctrunc, h]

lemma ctrunc_nonneg (x : α) (h : 0 ≤ x) : 0 ≤ ctrunc x := by
  rw [ctrunc_of_nonneg x h]
  exact Int.le_floor.mpr (by exact_mod_cast h)

lemma cfmod_nonneg (x y : α) (hx : 0 ≤ x) (hy : 0 < y) : 0 ≤ cfmod x y := by
  unfold cfmod
  rw [ctrunc_of_nonneg _ (div_nonneg hx hy.le)]
  have h1 : (⌊x / y⌋ : α) ≤ x / y := Int.floor_le (x / y)
  have h2 : y * (⌊x / y⌋ : α) ≤ y * (x / y) := by
    exact mul_le_mul_of_nonneg_left h1 hy.le
  rw [mul_div_cancel₀ x hy.ne'] at h2
  linarith

lemma ntInit_ge_one (a : α) (h : 0 ≤ a) : 1 ≤ ntInit a := by
  unfold ntInit
  have : 0 ≤ ctrunc (a * 3 / cPI) :=
    ctrunc_nonneg _ (div_nonneg (by linarith) (cPI_pos (α := α)).le)
  omega

lemma ntDom_fst_ge_one (a : α) (h : 0 ≤ a) : 1 ≤ (ntDom a).1 := by
  have h1 := ntInit_ge_one a h
  simp only [ntDom]
  split_ifs with hif
  · simp only
    omega
  · exact h1

omit [FloorRing α] in
lemma getD_nonneg (l : List α) (i : ℕ) (h : ∀ x ∈ l, 0 ≤ x) : 0 ≤ l.getD i 0 := by
  rw [List.getD_eq_getElem?_getD]
  cases hl : l[i]? with
  | none => simp
  | some a => simpa using h a (List.getElem?_mem hl)

lemma omegaAt_nonneg (pr : Primitives α) (P : List (MeshVertex α)) (i : ℕ)
    (hatan : ∀ y x, |pr.atan2 y x| ≤ cPI) : 0 ≤ omegaAt pr P i := by
  simp only [omegaAt]
  apply cfmod_nonneg
  · set a1 := pr.atan2 _ _ with ha1
    set a2 := pr.atan2 _ _ with ha2
    have h1 := abs_le.mp (hatan _ _ : |a1| ≤ cPI)
    have h2 := abs_le.mp (hatan _ _ : |a2| ≤ cPI)
    split_ifs with hneg
    · have := cPI_pos (α := α)
      linarith
    · linarith [not_lt.mp hneg]
  · linarith [cPI_pos (α := α)]

lemma omegaList_nonneg (pr : Primitives α) (P : List (MeshVertex α))
    (hatan : ∀ y x, |pr.atan2 y x| ≤ cPI) : ∀ x ∈ omegaList pr P, 0 ≤ x := by
  intro x hx
  simp only [omegaList, List.mem_map] at hx
  obtain ⟨i, _, rfl⟩ := hx
  exact omegaAt_nonneg pr P i hatan

lemma stepMinangle_nonneg (pr : Primitives α) (P : List (MeshVertex α))
    (hatan : ∀ y x, |pr.atan2 y x| ≤ cPI) : 0 ≤ stepMinangle pr P := by
  exact getD_nonneg _ _ (omegaList_nonneg pr P hatan)

omit [FloorRing α] in
lemma argminGo_lt (arr : List α) :
    ∀ (k i m : ℕ), m < arr.length → arr.length - i ≤ k → argminGo arr m i < arr.length := by
  intro k
  induction k with
  | zero =>
    intro i m hm hk
    rw [argminGo, dif_neg (by omega)]
    exact hm
  | succ k ih =>
    intro i m hm hk
    by_cases hi : i < arr.length
    · rw [argminGo, dif_pos hi]
      apply ih
      · split_ifs <;> omega
      · omega
    · rw [argminGo, dif_neg hi]
      exact hm

omit [FloorRing α] in
lemma argmin_lt (arr : List α) (h : 0 < arr.length) : argmin arr < arr.length :=
  argminGo_lt arr arr.length 1 0 h (by omega)

omit [FloorRing α] in
lemma argminGo_stays_zero (arr : List α)
    (hnear : ∀ j, j < arr.length → arr.getD 0 0 - arr.getD j 0 ≤ cEps6) :
    ∀ (k i : ℕ), arr.length - i ≤ k → argminGo arr 0 i = 0 := by
  intro k
  induction k with
  | zero =>
    intro i hk
    rw [argminGo, dif_neg (by omega)]
  | succ k ih =>
    intro i hk
    by_cases hi : i < arr.length
    · rw [argminGo, dif_pos hi, if_neg (not_lt.mpr (hnear i hi))]
      exact ih (i + 1) (by omega)
    · rw [argminGo, dif_neg hi]

lemma vads_length (P Pi : List β) (idx : ℕ) (h : idx < P.length) :
    (vertex_array_drop_and_stack P Pi idx).length = P.length - 1 + Pi.length := by
  simp only [vertex_array_drop_and_stack]
  split_ifs with h0
  · simp only [List.length_nil]
    omega
  · simp only [List.length_append, List.length_take, List.length_drop]
    omega

omit [FloorRing α] in
lemma stepFanF_shape (pr : Primitives α) (pp : Pot α) (delta : α)
    (p0m v1 : MeshVertex α) (domega : α) (V0 : List (MeshVertex α))
    (T0 : List (Triangle α)) (i : ℕ) :
    ∃ pk tri, stepFanF pr pp delta p0m v1 domega (V0, T0) i = (V0 ++ [pk], T0 ++ [tri]) :=
  ⟨_, _, rfl⟩

omit [FloorRing α] in
lemma stepFanFold_shape (pr : Primitives α) (pp : Pot α) (delta : α)
    (p0m v1 : MeshVertex α) (domega : α) :
    ∀ (k s : ℕ) (V0 : List (MeshVertex α)) (T0 : List (Triangle α)),
      ∃ L M, (List.range' s k).foldl (stepFanF pr pp delta p0m v1 domega) (V0, T0)
          = (V0 ++ L, T0 ++ M) ∧ L.length = k ∧ M.length = k := by
  intro k
  induction k with
  | zero =>
    intro s V0 T0
    exact ⟨[], [], by simp, rfl, rfl⟩
  | succ k ih =>
    intro s V0 T0
    rw [List.range'_succ, List.foldl_cons]
    obtain ⟨pk, tri, hstep⟩ := stepFanF_shape pr pp delta p0m v1 domega V0 T0 s
    rw [hstep]
    obtain ⟨L, M, hfold, hL, hM⟩ := ih (s + 1) (V0 ++ [pk]) (T0 ++ [tri])
    refine ⟨pk :: L, tri :: M, ?_, by simp [hL], by simp [hM]⟩
    rw [hfold]
    simp

omit [FloorRing α] in
lemma stepFan_shape (pr : Primitives α) (pp : Pot α) (delta : α)
    (p0m v1 : MeshVertex α) (domega : α) (k : ℕ) (V : List (MeshVertex α)) :
    ∃ L, (stepFan pr pp delta p0m v1 domega k V).1 = V ++ L ∧ L.length = k ∧
      (stepFan pr pp delta p0m v1 domega k V).2.length = k := by
  obtain ⟨L, M, hfold, hL, hM⟩ := stepFanFold_shape pr pp delta p0m v1 domega k 1 V []
  refine ⟨L, ?_, hL, ?_⟩
  · rw [stepFan, hfold]
  · rw [stepFan, hfold]
    simpa using hM

omit [FloorRing α] in
lemma stepPi_length (nt : ℤ) (Vnew : List (MeshVertex α)) :
    (stepPi nt Vnew).length = (nt - 1).toNat := by
  simp only [stepPi, List.length_map, List.length_range']

lemma cdiscretizeStep_counts (pr : Primitives α) (pp : Pot α) (delta : α)
    (P V : List (MeshVertex α)) (Ts : List (Triangle α)) (hP : 0 < P.length) :
    ∃ newT : List (Triangle α),
      (cdiscretizeStep pr pp delta P V Ts).2.2 = Ts ++ newT ∧
      newT.length = ((ntDom (stepMinangle pr P)).1 - 1).toNat + 1 ∧
      (cdiscretizeStep pr pp delta P V Ts).1.length
        = P.length - 1 + ((ntDom (stepMinangle pr P)).1 - 1).toNat := by
  have hidx : argmin (omegaList pr P) < P.length := by
    have hlen : (omegaList pr P).length = P.length := by
      simp [omegaList]
    rw [← hlen]
    exact argmin_lt _ (by omega)
  simp only [cdiscretizeStep, stepMinangle]
  obtain ⟨L, hV, hL, hM⟩ := stepFan_shape pr pp delta
    (P.getD (argmin (omegaList pr P)) mvZero)
    (P.getD (if argmin (omegaList pr P) = 0 then P.length - 1
       else argmin (omegaList pr P) - 1) mvZero)
    (ntDom ((omegaList pr P).getD (argmin (omegaList pr P)) 0)).2
    ((ntDom ((omegaList pr P).getD (argmin (omegaList pr P)) 0)).1 - 1).toNat V
  rw [List.append_assoc]
  refine ⟨_, rfl, ?_, ?_⟩
  · rw [List.length_append, hM]
    rfl
  · rw [vads_length _ _ _ hidx, stepPi_length]

lemma cdiscretizeLoop_stepBound (pr : Primitives α) (pp : Pot α) (delta : α) (maxT : ℤ) :
    ∀ (fuel : ℕ) (step : ℤ) (P V : List (MeshVertex α)) (Ts : List (Triangle α)),
      (cdiscretizeLoop pr pp delta maxT fuel step P V Ts).2 = ExitKind.stepBound →
      Ts.length + (maxT - step).toNat ≤
        (cdiscretizeLoop pr pp delta maxT fuel step P V Ts).1.length := by
  intro fuel
  induction fuel with
  | zero =>
    intro step P V Ts h
    simp [cdiscretizeLoop] at h
  | succ fuel ih =>
    intro step P V Ts h
    by_cases hp : 0 < P.length
    · by_cases hb : 0 < maxT ∧ maxT < step + 1
      · rw [cdiscretizeLoop, if_pos hp, if_pos hb]
        simp only [List.length_nil]
        omega
      · rw [cdiscretizeLoop, if_pos hp, if_neg hb] at h ⊢
        show Ts.length + (maxT - step).toNat ≤
          (cdiscretizeLoop pr pp delta maxT fuel (step + 1)
            (cdiscretizeStep pr pp delta P V Ts).1
            (cdiscretizeStep pr pp delta P V Ts).2.1
            (cdiscretizeStep pr pp delta P V Ts).2.2).1.length
        obtain ⟨newT, hTs, hlen, _⟩ := cdiscretizeStep_counts pr pp delta P V Ts hp
        have hlen2 : ((cdiscretizeStep pr pp delta P V Ts).2.2).length
            = Ts.length + newT.length := by
          rw [hTs, List.length_append]
        have hrec := ih (step + 1) (cdiscretizeStep pr pp delta P V Ts).1
          (cdiscretizeStep pr pp delta P V Ts).2.1
          (cdiscretizeStep pr pp delta P V Ts).2.2 h
        omega
    · rw [cdiscretizeLoop, if_neg hp] at h
      simp at h

omit [FloorRing α] in
lemma initialTris_length (V1 : List (MeshVertex α)) : (initialTris V1).length = 6 := by
  simp [initialTris]

lemma cdiscretizeCore_stepBound (pr : Primitives α) (pp : Pot α) (delta : α)
    (maxT : ℤ) (fuel : ℕ)
    (h : (cdiscretizeCore pr pp delta maxT fuel).2 = ExitKind.stepBound) :
    6 + (maxT + 1).toNat ≤ (cdiscretizeCore pr pp delta maxT fuel).1.length := by
  have h2 := cdiscretizeLoop_stepBound pr pp delta maxT fuel (-1)
    (hexRing pr pp delta (project_onto_potential pr pp ⟨-(2 / 100000), 0, 0⟩).1)
    ((project_onto_potential pr pp ⟨-(2 / 100000), 0, 0⟩).1 ::
      hexRing pr pp delta (project_onto_potential pr pp ⟨-(2 / 100000), 0, 0⟩).1)
    (initialTris ((project_onto_potential pr pp ⟨-(2 / 100000), 0, 0⟩).1 ::
      hexRing pr pp delta (project_onto_potential pr pp ⟨-(2 / 100000), 0, 0⟩).1)) h
  have h7 := initialTris_length ((project_onto_potential pr pp ⟨-(2 / 100000), 0, 0⟩).1 ::
      hexRing pr pp delta (project_onto_potential pr pp ⟨-(2 / 100000), 0, 0⟩).1)
  show 6 + (maxT + 1).toNat ≤ (cdiscretizeLoop pr pp delta maxT fuel (-1)
    (hexRing pr pp delta (project_onto_potential pr pp ⟨-(2 / 100000), 0, 0⟩).1)
    ((project_onto_potential pr pp ⟨-(2 / 100000), 0, 0⟩).1 ::
      hexRing pr pp delta (project_onto_potential pr pp ⟨-(2 / 100000), 0, 0⟩).1)
    (initialTris ((project_onto_potential pr pp ⟨-(2 / 100000), 0, 0⟩).1 ::
      hexRing pr pp delta (project_onto_potential pr pp ⟨-(2 / 100000), 0, 0⟩).1))).1.length
  omega

omit [FloorRing α] in
lemma projectGo_iter_le (pp : Pot α) :
    ∀ (fuel : ℕ) (r ri : Vec3 α) (n : ℕ), n ≤ 100 →
      (projectGo pp fuel r ri n).2.2 ≤ 100 := by
  intro fuel
  induction fuel with
  | zero => intro r ri n hn; exact hn
  | succ fuel ih =>
    intro r ri n hn
    rw [projectGo]
    split_ifs with hc
    · exact ih _ _ (n + 1) (by omega)
    · exact hn

omit [FloorRing α] in
lemma projectGo_exit (pp : Pot α) :
    ∀ (fuel : ℕ) (r ri : Vec3 α) (n : ℕ), 100 ≤ n + fuel → n ≤ 100 →
      distSq (projectGo pp fuel r ri n).1 (projectGo pp fuel r ri n).2.1 ≤ tol ∨
        (projectGo pp fuel r ri n).2.2 = 100 := by
  intro fuel
  induction fuel with
  | zero =>
    intro r ri n h1 h2
    right
    show n = 100
    omega
  | succ fuel ih =>
    intro r ri n h1 h2
    rw [projectGo]
    split_ifs with hc
    · exact ih _ _ (n + 1) (by omega) (by omega)
    · rcases not_and_or.mp hc with hd | hn
      · exact Or.inl (not_lt.mp hd)
      · right
        show n = 100
        omega

omit [FloorRing α] in
lemma projectGo_fixpoint (pp : Pot α) (fuel : ℕ) (r ri : Vec3 α) (n : ℕ) :
    projectGo pp fuel r ri n = (r, ri, n) ∨ (tol < distSq r ri ∧ n < 100) := by
  cases fuel with
  | zero => exact Or.inl rfl
  | succ fuel =>
    by_cases hc : tol < distSq r ri ∧ n < 100
    · exact Or.inr hc
    · rw [projectGo, if_neg hc]
      exact Or.inl rfl

/-- Claim C1 (code-bug exhibit).  The claim (and spec section 4.C) says the
tangent branch is chosen on |n_x|, |n_y|; the code tests the signed values
`n[0] > 0.5 || n[1] > 0.5`.  At the unit normal n = (0,-1,0) (e.g. produced
from gradient (0,-2,0) at the -y pole of a sphere) the spec rule takes the
first branch and yields the well-defined tangent (-1,0,0), while the code
falls into the else branch and divides by sqrt(0*0 + 0*0) = 0 (a NaN in C;
in the exact model the quotients are the zero vector for every sqrt).  At
n = (-1,0,0) the two rules likewise pick different branches and produce
different tangents. -/
theorem C1_t1_branch_bug :
    (∀ sq : ℚ → ℚ, t1FromN sq ⟨0, -1, 0⟩ = ⟨0, 0, 0⟩) ∧
    (∀ sq : ℚ → ℚ, sq 1 = 1 → t1SpecRule sq ⟨0, -1, 0⟩ = ⟨-1, 0, 0⟩) ∧
    (∀ sq : ℚ → ℚ, sq 1 = 1 →
      t1FromN sq ⟨-1, 0, 0⟩ = ⟨0, 0, -1⟩ ∧ t1SpecRule sq ⟨-1, 0, 0⟩ = ⟨0, 1, 0⟩) := by
  refine ⟨?_, ?_, ?_⟩
  · intro sq
    simp [t1FromN]
    norm_num
  · intro sq hsq
    simp [t1SpecRule]
    norm_num [hsq]
  · intro sq hsq
    constructor
    · simp [t1FromN]
      norm_num [hsq]
    · simp [t1SpecRule]
      norm_num [hsq]

/-- Witness for C1_t1_branch_bug at the concrete square root `fun _ => 1`. -/
theorem C1_t1_branch_bug_witness :
    t1FromN (fun _ => (1 : ℚ)) ⟨0, -1, 0⟩ = ⟨0, 0, 0⟩ ∧
    t1SpecRule (fun _ => (1 : ℚ)) ⟨0, -1, 0⟩ = ⟨-1, 0, 0⟩ ∧
    (t1FromN (fun _ => (1 : ℚ)) ⟨-1, 0, 0⟩ = ⟨0, 0, -1⟩ ∧
     t1SpecRule (fun _ => (1 : ℚ)) ⟨-1, 0, 0⟩ = ⟨0, 1, 0⟩) :=
  ⟨C1_t1_branch_bug.1 _, C1_t1_branch_bug.2.1 _ rfl, C1_t1_branch_bug.2.2 _ rfl⟩

/-- Claim C3 counterexample: a call supplying exactly the three mandatory
positional arguments (delta, max_triangles, "Heart") — with the empty
parameter tail that Heart's declared arity 0 would suggest — IS rejected
with "Not enough parameters." by the `npars < 4` check at mrch.c line 787,
contrary to the claim. -/
theorem C3_counterexample :
    discretizeValidate "Heart" 3 = Except.error PyErr.notEnoughParameters := rfl

/-- Claim C3 (amended): the entry point raises NotEnoughParameters exactly
when fewer than FOUR positional arguments are supplied, i.e. when the three
mandatory arguments are not followed by at least one potential parameter;
in particular the three-argument Heart call raises it (Heart in the code
requires exactly one — ignored — tail parameter, npars = 4). -/
theorem C3_notEnough_iff (potential : String) (npars : ℕ) :
    discretizeValidate potential npars = Except.error PyErr.notEnoughParameters ↔
      npars < 4 := by
  unfold discretizeValidate
  split_ifs <;> simp_all

set_option maxHeartbeats 1000000 in
omit [FloorRing α] in
/-- Claim C10: every call that passes the entry point's validation carries one
of the six registered potential names, and on those names `init_pars` returns
a fully assigned descriptor — so the fall-through descriptor with unassigned
function pointers is unreachable from the public interface. -/
theorem C10_registry_unreachable (potential : String) (npars : ℕ)
    (pr : Primitives α) (args : List α)
    (h : ∃ k, discretizeValidate potential npars = Except.ok k) :
    potential ∈ ["Sphere", "BinaryRoche", "MisalignedBinaryRoche", "RotateRoche",
      "Torus", "Heart"] ∧ (init_pars pr potential args).isSome = true := by
  obtain ⟨k, hk⟩ := h
  have hmem : potential ∈ ["Sphere", "BinaryRoche", "MisalignedBinaryRoche",
      "RotateRoche", "Torus", "Heart"] := by
    unfold discretizeValidate at hk
    split_ifs at hk <;> simp_all
  refine ⟨hmem, ?_⟩
  have hmem2 := hmem
  simp only [List.mem_cons, List.not_mem_nil, or_false] at hmem2
  rcases hmem2 with h | h | h | h | h | h <;> subst h <;> rfl

/-- Witness for C10_registry_unreachable at potential "Sphere", npars 4. -/
theorem C10_registry_unreachable_witness :
    (∃ k, discretizeValidate "Sphere" 4 = Except.ok k) ∧
    ("Sphere" ∈ ["Sphere", "BinaryRoche", "MisalignedBinaryRoche", "RotateRoche",
      "Torus", "Heart"] ∧ (init_pars qPrims "Sphere" [(1 : ℚ)]).isSome = true) :=
  ⟨⟨4, rfl⟩, C10_registry_unreachable "Sphere" 4 qPrims [1] ⟨4, rfl⟩⟩

omit [FloorRing α] in
/-- Claim C5: the projection operator always terminates within 100 Newton
iterations; at exit either the squared step (distance between the final two
iterates) is at most 1e-12 or the iteration count is exactly 100; the loop
stops as soon as the continuation condition fails (it is a fixpoint whenever
the squared step is not above the tolerance or 100 iterations are reached);
and in every case the function returns the fully populated surface vertex
built at the last iterate, with the non-fatal warning raised exactly when the
iteration count is at least 90. -/
theorem C5_projection_behavior (pr : Primitives α) (pp : Pot α) :
    (∀ r : Vec3 α, (projectGo pp 100 r v3zero 0).2.2 ≤ 100) ∧
    (∀ r : Vec3 α,
      distSq (projectGo pp 100 r v3zero 0).1 (projectGo pp 100 r v3zero 0).2.1 ≤ tol ∨
        (projectGo pp 100 r v3zero 0).2.2 = 100) ∧
    (∀ (fuel : ℕ) (r ri : Vec3 α) (n : ℕ),
      projectGo pp fuel r ri n = (r, ri, n) ∨ (tol < distSq r ri ∧ n < 100)) ∧
    (∀ r : Vec3 α, project_onto_potential pr pp r =
      (vertex_from_pot pr pp (projectGo pp 100 r v3zero 0).1,
        decide (90 ≤ (projectGo pp 100 r v3zero 0).2.2))) :=
  ⟨fun r => projectGo_iter_le pp 100 r v3zero 0 (by omega),
   fun r => projectGo_exit pp 100 r v3zero 0 (by omega) (by omega),
   fun fuel r ri n => projectGo_fixpoint pp fuel r ri n,
   fun _ => rfl⟩

omit [FloorRing α] in
/-- Claim C9: for every input point whose squared distance to the origin is at
most 1e-12, the Newton loop performs zero iterations — because the previous
iterate is initialized to the origin before the first convergence test — and
the function returns the surface vertex built at the unchanged input point
(with no warning, as the iteration count 0 is below 90). -/
theorem C9_zero_iterations (pr : Primitives α) (pp : Pot α) (r : Vec3 α)
    (h : distSq r v3zero ≤ tol) :
    projectGo pp 100 r v3zero 0 = (r, v3zero, 0) ∧
    project_onto_potential pr pp r = (vertex_from_pot pr pp r, false) := by
  have h1 : projectGo pp 100 r v3zero 0 = (r, v3zero, 0) := by
    rw [projectGo, if_neg (fun hc => (not_lt.mpr h) hc.1)]
  refine ⟨h1, ?_⟩
  simp only [project_onto_potential]
  rw [h1]
  rfl

/-- Witness for C9_zero_iterations at r = (0,0,0) with the rational test
primitives and the zero potential. -/
theorem C9_zero_iterations_witness :
    distSq (v3zero : Vec3 ℚ) v3zero ≤ tol ∧
    (projectGo qPot 100 v3zero v3zero 0 = (v3zero, v3zero, 0) ∧
     project_onto_potential qPrims qPot v3zero = (vertex_from_pot qPrims qPot v3zero, false)) :=
  ⟨by norm_num [distSq, v3zero, tol], C9_zero_iterations qPrims qPot v3zero
    (by norm_num [distSq, v3zero, tol])⟩

/-- Claim C2 counterexample: no run of the marching core with max_triangles =
50 can both stop because the step counter exceeded max_triangles and return
exactly 56 rows — when the step bound fires, 51 loop iterations have
completed and each appends at least one triangle to the 6 initial ones, so at
least 57 rows are returned.  This holds for every choice of primitive
routines and potential descriptor over the reals, hence in particular for
`discretize(0.1, 50, "Sphere", 1.0)`. -/
theorem C2_counterexample : ¬ C2ClaimAsStated := by
  rintro ⟨pr, pp, fuel, hexit, hlen⟩
  have h2 := cdiscretizeCore_stepBound pr pp (1 / 10) 50 fuel hexit
  omega

/-- Claim C2 (amended): whenever `cdiscretize(delta, 50, ...)` terminates
because the step counter exceeds max_triangles = 50, the output has at least
6 + 51 = 57 rows (the six initial-hexagon triangles plus at least one
triangle from each of the 51 completed loop iterations); in particular it
never has exactly 56 rows under step-bound termination. -/
theorem C2_amended_rows (pr : Primitives α) (pp : Pot α) (delta : α) (fuel : ℕ) :
    (cdiscretizeCore pr pp delta 50 fuel).2 ≠ ExitKind.stepBound ∨
      57 ≤ (cdiscretizeCore pr pp delta 50 fuel).1.length := by
  by_cases h : (cdiscretizeCore pr pp delta 50 fuel).2 = ExitKind.stepBound
  · right
    have h2 := cdiscretizeCore_stepBound pr pp delta 50 fuel h
    omega
  · exact Or.inl h

/-- Claim C7: for a selected minimum angle a >= 0 the code's
`nt = trunc(a*3/PI) + 1` equals the floor formula of the claim, and the pair
(nt, domega) actually used is obtained from it by exactly one decrement —
applied precisely when domega < 0.8 and nt > 1, with domega recomputed as
a/(nt-1) — and no further adjustment. -/
theorem C7_wedge_division (a : α) (h : 0 ≤ a) :
    ntInit a = ⌊a * 3 / cPI⌋ + 1 ∧
    ntDom a =
      (if a / ((⌊a * 3 / cPI⌋ + 1 : ℤ) : α) < 4 / 5 ∧ 1 < ⌊a * 3 / cPI⌋ + 1 then
        (⌊a * 3 / cPI⌋, a / ((⌊a * 3 / cPI⌋ : ℤ) : α))
      else (⌊a * 3 / cPI⌋ + 1, a / ((⌊a * 3 / cPI⌋ + 1 : ℤ) : α))) := by
  have hf : ctrunc (a * 3 / cPI) = ⌊a * 3 / cPI⌋ :=
    ctrunc_of_nonneg _ (div_nonneg (by linarith) (cPI_pos (α := α)).le)
  refine ⟨by rw [ntInit, hf], ?_⟩
  simp only [ntDom, ntInit, hf, add_sub_cancel_right]

/-- Witness for C7_wedge_division at a = 2 (over the rationals). -/
theorem C7_wedge_division_witness :
    (0 : ℚ) ≤ 2 ∧
    (ntInit (2 : ℚ) = ⌊(2 : ℚ) * 3 / cPI⌋ + 1 ∧
     ntDom (2 : ℚ) =
       (if (2 : ℚ) / ((⌊(2 : ℚ) * 3 / cPI⌋ + 1 : ℤ) : ℚ) < 4 / 5 ∧
           1 < ⌊(2 : ℚ) * 3 / cPI⌋ + 1 then
         (⌊(2 : ℚ) * 3 / cPI⌋, (2 : ℚ) / ((⌊(2 : ℚ) * 3 / cPI⌋ : ℤ) : ℚ))
       else (⌊(2 : ℚ) * 3 / cPI⌋ + 1, (2 : ℚ) / ((⌊(2 : ℚ) * 3 / cPI⌋ + 1 : ℤ) : ℚ)))) :=
  ⟨by norm_num, C7_wedge_division 2 (by norm_num)⟩

omit [FloorRing α] in
/-- Claim C6: pivot selection is the linear scan from index 0 in which index i
replaces the current minimum index m exactly when omega[m] exceeds omega[i]
by more than 1e-6 (first conjunct: the scan-step recurrence), and when all
values lie within 1e-6 of each other the earliest index 0 is kept (second
conjunct). -/
theorem C6_pivot_selection :
    (∀ (arr : List α) (m i : ℕ), i < arr.length →
      argminGo arr m i =
        argminGo arr (if arr.getD m 0 - arr.getD i 0 > cEps6 then i else m) (i + 1)) ∧
    (∀ arr : List α,
      (∀ i, i < arr.length → ∀ j, j < arr.length →
        arr.getD i 0 - arr.getD j 0 ≤ cEps6) → argmin arr = 0) := by
  constructor
  · intro arr m i hi
    rw [argminGo, dif_pos hi]
  · intro arr hnear
    rcases Nat.eq_zero_or_pos arr.length with hlen | hlen
    · rw [argmin, argminGo, dif_neg (by omega)]
    · exact argminGo_stays_zero arr (fun j hj => hnear 0 hlen j hj) arr.length 1 (by omega)

/-- Witness for C6_pivot_selection: the scan step on [5, 0, 1] at i = 1, and
the near-tie list [0, 1e-7] on which the earliest index 0 is kept. -/
theorem C6_pivot_selection_witness :
    (argminGo [(5 : ℚ), 0, 1] 0 1 =
      argminGo [(5 : ℚ), 0, 1]
        (if [(5 : ℚ), 0, 1].getD 0 0 - [(5 : ℚ), 0, 1].getD 1 0 > cEps6 then 1 else 0) 2) ∧
    argmin [(0 : ℚ), 1 / 10 ^ 7] = 0 :=
  ⟨C6_pivot_selection.1 [5, 0, 1] 0 1 (by norm_num),
   C6_pivot_selection.2 [0, 1 / 10 ^ 7] (by
     intro i hi j hj
     simp only [List.length_cons, List.length_nil] at hi hj
     interval_cases i <;> interval_cases j <;>
       norm_num [List.getD_cons_zero, List.getD_cons_succ, cEps6])⟩

omit [FloorRing α] in
/-- Claim C4: for a front P with idx < |P| and any vertex list Pi,
drop-and-splice replaces the single element P[idx] by the ordered contents of
Pi: the new length is |P| - 1 + |Pi|; entries before idx keep index and
value; the entries of Pi appear in order starting at index idx; the entries
originally after idx follow in their original order; and when the new length
is 0 the result is the empty front. -/
theorem C4_drop_and_splice (P Pi : List β) (idx : ℕ) (h : idx < P.length) :
    (vertex_array_drop_and_stack P Pi idx).length = P.length - 1 + Pi.length ∧
    (∀ i, i < idx → (vertex_array_drop_and_stack P Pi idx)[i]? = P[i]?) ∧
    (∀ j, j < Pi.length →
      (vertex_array_drop_and_stack P Pi idx)[idx + j]? = Pi[j]?) ∧
    (∀ k, idx + 1 + k < P.length →
      (vertex_array_drop_and_stack P Pi idx)[idx + Pi.length + k]? = P[idx + 1 + k]?) ∧
    (P.length - 1 + Pi.length = 0 → vertex_array_drop_and_stack P Pi idx = []) := by
  refine ⟨vads_length P Pi idx h, ?_⟩
  have hTake : (P.take idx).length = idx := by
    rw [List.length_take]
    omega
  by_cases h0 : P.length + Pi.length - 1 = 0
  · have hR : vertex_array_drop_and_stack P Pi idx = [] := by
      simp only [vertex_array_drop_and_stack]
      rw [if_pos h0]
    exact ⟨fun i hi => by omega, fun j hj => by omega, fun k hk => by omega, fun _ => hR⟩
  · have hR : vertex_array_drop_and_stack P Pi idx
        = P.take idx ++ Pi ++ P.drop (idx + 1) := by
      simp only [vertex_array_drop_and_stack]
      rw [if_neg h0]
    rw [hR]
    refine ⟨?_, ?_, ?_, fun hc => absurd hc (by omega)⟩
    · intro i hi
      rw [List.append_assoc, List.getElem?_append]
      rw [if_pos (by omega)]
      rw [List.getElem?_take, if_pos hi]
    · intro j hj
      rw [List.append_assoc, List.getElem?_append, if_neg (by omega)]
      rw [hTake]
      have hj2 : idx + j - idx = j := by omega
      rw [hj2, List.getElem?_append, if_pos hj]
    · intro k hk
      rw [List.append_assoc, List.getElem?_append, if_neg (by omega)]
      rw [hTake]
      have hk2 : idx + Pi.length + k - idx = Pi.length + k := by omega
      rw [hk2, List.getElem?_append, if_neg (by omega)]
      have hk3 : Pi.length + k - Pi.length = k := by omega
      rw [hk3, List.getElem?_drop]

/-- Witness for C4_drop_and_splice at P = [10, 20, 30], Pi = [7, 8], idx = 1. -/
theorem C4_drop_and_splice_witness :
    (1 : ℕ) < [10, 20, 30].length ∧
    ((vertex_array_drop_and_stack [10, 20, 30] [7, 8] 1).length
        = [10, 20, 30].length - 1 + [7, 8].length ∧
     (∀ i, i < 1 → (vertex_array_drop_and_stack [10, 20, 30] [7, 8] 1)[i]? = [10, 20, 30][i]?) ∧
     (∀ j, j < [7, 8].length →
       (vertex_array_drop_and_stack [10, 20, 30] [7, 8] 1)[1 + j]? = [7, 8][j]?) ∧
     (∀ k, 1 + 1 + k < [10, 20, 30].length →
       (vertex_array_drop_and_stack [10, 20, 30] [7, 8] 1)[1 + [7, 8].length + k]?
         = [10, 20, 30][1 + 1 + k]?) ∧
     ([10, 20, 30].length - 1 + [7, 8].length = 0 →
       vertex_array_drop_and_stack [10, 20, 30] [7, 8] 1 = [])) :=
  ⟨by norm_num, C4_drop_and_splice [10, 20, 30] [7, 8] 1 (by norm_num)⟩

/-- Claim C8: one iteration of the main marching loop, on a nonempty front and
with an atan2 primitive ranged in [-PI, PI] as the C library guarantees,
appends exactly nt triangles to Ts (where nt >= 1 is the wedge count computed
for the selected minimum angle), changes the front size by exactly nt - 2,
and extends Ts append-only: the previous triangles are an unchanged initial
segment of the new list. -/
theorem C8_step_invariant (pr : Primitives α) (pp : Pot α) (delta : α)
    (P V : List (MeshVertex α)) (Ts : List (Triangle α))
    (hP : 0 < P.length) (hatan : ∀ y x, |pr.atan2 y x| ≤ cPI) :
    1 ≤ (ntDom (stepMinangle pr P)).1 ∧
    ((cdiscretizeStep pr pp delta P V Ts).2.2.length : ℤ)
      = Ts.length + (ntDom (stepMinangle pr P)).1 ∧
    ((cdiscretizeStep pr pp delta P V Ts).1.length : ℤ) + 2
      = P.length + (ntDom (stepMinangle pr P)).1 ∧
    ∃ newT, (cdiscretizeStep pr pp delta P V Ts).2.2 = Ts ++ newT := by
  have hnt := ntDom_fst_ge_one _ (stepMinangle_nonneg pr P hatan)
  obtain ⟨newT, hTs, hlen, hPlen⟩ := cdiscretizeStep_counts pr pp delta P V Ts hP
  have hTs_len : (cdiscretizeStep pr pp delta P V Ts).2.2.length
      = Ts.length + newT.length := by
    rw [hTs, List.length_append]
  exact ⟨hnt, by omega, by omega, newT, hTs⟩

/-- Witness for C8_step_invariant: a single-vertex front over the rationals
with the zero-everywhere test primitives (so the minimum angle is 0 and
nt = 1: one closing triangle is appended and the front empties). -/
theorem C8_step_invariant_witness :
    0 < [(mvZero : MeshVertex ℚ)].length ∧
    (∀ y x : ℚ, |qPrims.atan2 y x| ≤ cPI) ∧
    (1 ≤ (ntDom (stepMinangle qPrims [(mvZero : MeshVertex ℚ)])).1 ∧
     ((cdiscretizeStep qPrims qPot (1 / 10) [(mvZero : MeshVertex ℚ)] [] []).2.2.length : ℤ)
       = ([] : List (Triangle ℚ)).length
         + (ntDom (stepMinangle qPrims [(mvZero : MeshVertex ℚ)])).1 ∧
     ((cdiscretizeStep qPrims qPot (1 / 10) [(mvZero : MeshVertex ℚ)] [] []).1.length : ℤ) + 2
       = [(mvZero : MeshVertex ℚ)].length
         + (ntDom (stepMinangle qPrims [(mvZero : MeshVertex ℚ)])).1 ∧
     ∃ newT, (cdiscretizeStep qPrims qPot (1 / 10) [(mvZero : MeshVertex ℚ)] [] []).2.2
       = ([] : List (Triangle ℚ)) ++ newT) :=
  ⟨by norm_num, fun y x => by norm_num [qPrims, cPI],
   C8_step_invariant qPrims qPot (1 / 10) [mvZero] [] [] (by norm_num)
     (fun y x => by norm_num [qPrims, cPI])⟩
